import Mathlib

/-!
Verification of the `cacaluploader` calendar synchronization tool
(`src/python/cacaluploader.py`) against its specification.

The embedding models the `CampusCalendarUploader` class: its time-window
state and setters, the source-calendar fetch (`_retrieve_source_calendar`),
the event filtering in `upload`, the destination-calendar resolution
(`_retrieve_upload_calendar`), the replace operation (`_upload_events`),
and the command-line orchestrator (the `__main__` block).

External collaborators (HTTP transport, iCalendar parser, CalDAV client,
configuration loader) are modelled as black-box inputs: each network
request has an explicit outcome supplied as data, and parsing is an
abstract function. Time instants are measured in days, so one week is 7
and the default window of "1 week in the past to 27 weeks in the future"
is `today - 7` to `today + 189`.
-/

namespace CacalUpload

/-- Time instants, in days. The source uses `datetime`; only ordering and
week offsets matter for the properties verified here. -/
abbrev Time := Int

/-- The error raised by the constructor and the window setters
(Python `ValueError`). -/
inductive ValueErr
  | valueError
  deriving DecidableEq, Repr

/-- State of a `CampusCalendarUploader` object: the private window fields
`_start_time` / `_end_time` (optional, mirroring the defensive `None`
checks in the setters) and the credential/URL fields. -/
structure Uploader where
  startTime : Option Time
  endTime : Option Time
  matriculationNumber : String
  campusPassword : String
  calendarUrl : String
  calendarUser : String
  calendarPass : String
  deriving DecidableEq, Repr

/-- The `start_time` setter (lines 69-78): if `end_time` is absent it is
pulled to the new start; if `end_time < start` a `ValueError` is raised;
otherwise `_start_time` is assigned. -/
def setStartTime (u : Uploader) (start : Time) : Except ValueErr Uploader :=
  match u.endTime with
  | none => Except.ok { u with endTime := some start, startTime := some start }
  | some e =>
    if e < start then Except.error ValueErr.valueError
    else Except.ok { u with startTime := some start }

/-- The `end_time` setter (lines 84-93): if `start_time` is absent it is
pulled to the new end; if `start_time > end` a `ValueError` is raised;
otherwise `_end_time` is assigned. -/
def setEndTime (u : Uploader) (e : Time) : Except ValueErr Uploader :=
  match u.startTime with
  | none => Except.ok { u with startTime := some e, endTime := some e }
  | some s =>
    if s > e then Except.error ValueErr.valueError
    else Except.ok { u with endTime := some e }

/-- The constructor `__init__` (lines 32-63): defaults the window to
`today - 1 week .. today + 27 weeks`, stores the credentials, then if both
bounds are given assigns them through the property setters in order
(start first, then end), and if exactly one bound is given raises a
`ValueError`. -/
def initUploader (matNumber campusPass calUrl calUser calPass : String)
    (today : Time) (startTime? endTime? : Option Time) : Except ValueErr Uploader :=
  let u0 : Uploader :=
    { startTime := some (today - 7), endTime := some (today + 189),
      matriculationNumber := matNumber, campusPassword := campusPass,
      calendarUrl := calUrl, calendarUser := calUser, calendarPass := calPass }
  match startTime?, endTime? with
  | some s, some e =>
    (match setStartTime u0 s with
     | Except.error err => Except.error err
     | Except.ok u1 => setEndTime u1 e)
  | none, none => Except.ok u0
  | some _, none => Except.error ValueErr.valueError
  | none, some _ => Except.error ValueErr.valueError

/-- A top-level component of a parsed iCalendar document. The source only
distinguishes event components (`isinstance(x, icalendar.Event)`) from
everything else; the payload is opaque. -/
inductive Component
  | event (payload : Nat)
  | timezone (payload : Nat)
  | other (payload : Nat)
  deriving DecidableEq, Repr

/-- Whether a component is an event (`isinstance(x, icalendar.Event)`). -/
def Component.isEvent : Component → Bool
  | Component.event _ => true
  | _ => false

/-- The filtering step of `upload` (line 110):
`filter(lambda x: isinstance(x, icalendar.Event), source_cal.subcomponents)`. -/
def sourceEvents (subcomponents : List Component) : List Component :=
  subcomponents.filter Component.isEvent

/-- The HTTP requests issued by `_retrieve_source_calendar`, in order:
base page, login post, calendar export (carrying the window bounds that
parameterize the export URL), and logout. -/
inductive Req
  | base
  | login
  | exportReq (ws we : Option Time)
  | logout
  deriving DecidableEq, Repr

/-- Errors escaping `_retrieve_source_calendar`: a transport failure
(`requests.RequestException`, raised by a request itself or by
`raise_for_status`) or a login failure (`CampusOfficeAuthorizationError`). -/
inductive FetchErr
  | transport
  | campusAuth
  deriving DecidableEq, Repr

/-- Black-box outcomes of the four HTTP interactions of one fetch run.
For the first three requests a transport error at the call and a non-2xx
status are collapsed into one failure case, because the code follows each
with `raise_for_status` and both surface as `requests.RequestException`.
The logout request has no `raise_for_status`: its `Except.ok` case carries
the (ignored) response status, while `Except.error` is an exception raised
by the request call itself. -/
structure FetchNet where
  basePage : Except Unit Unit
  loginRedirect : Except Unit String
  exportResp : Except Unit String
  logoutResp : Except Unit Nat
  deriving Repr

/-- Substring test on character lists, modelling the Python membership
test `'loginfailed' in location`. -/
def hasSubstr (needle : List Char) : List Char → Bool
  | [] => needle.isEmpty
  | c :: rest => needle.isPrefixOf (c :: rest) || hasSubstr needle rest

/-- The login-failure marker searched for in the redirect location
(line 139). -/
def loginFailedMarker : List Char := "loginfailed".toList

/-- `_retrieve_source_calendar` (lines 117-154): fetch the base page,
post the credentials and inspect the redirect location for the failure
marker, request the export for the configured window, issue a best-effort
logout, and parse the body (with `parse` standing for
`icalendar.Calendar.from_ical` on the UTF-8 decoded text). Returns the
list of requests issued together with the outcome. -/
def retrieveSourceCalendar (u : Uploader) (net : FetchNet)
    (parse : String → List Component) : List Req × Except FetchErr (List Component) :=
  match net.basePage with
  | Except.error _ => ([Req.base], Except.error FetchErr.transport)
  | Except.ok _ =>
    match net.loginRedirect with
    | Except.error _ => ([Req.base, Req.login], Except.error FetchErr.transport)
    | Except.ok loc =>
      if hasSubstr loginFailedMarker loc.toList then
        ([Req.base, Req.login], Except.error FetchErr.campusAuth)
      else
        match net.exportResp with
        | Except.error _ =>
          ([Req.base, Req.login, Req.exportReq u.startTime u.endTime],
            Except.error FetchErr.transport)
        | Except.ok body =>
          match net.logoutResp with
          | Except.error _ =>
            ([Req.base, Req.login, Req.exportReq u.startTime u.endTime, Req.logout],
              Except.error FetchErr.transport)
          | Except.ok _ =>
            ([Req.base, Req.login, Req.exportReq u.startTime u.endTime, Req.logout],
              Except.ok (parse body))

/-- An action issued against the destination calendar by `_upload_events`:
the date-range query (with the window it was called at), a deletion of an
existing event, or an insertion of a fetched event. Events are opaque
identifiers. -/
inductive Action
  | query (ws we : Option Time)
  | del (ev : Nat)
  | ins (ev : Nat)
  deriving DecidableEq, Repr

/-- Whether an action is a deletion. -/
def Action.isDel : Action → Bool
  | Action.del _ => true
  | _ => false

/-- Whether an action is an insertion. -/
def Action.isIns : Action → Bool
  | Action.ins _ => true
  | _ => false

/-- Errors escaping `_upload_events`: `caldav.error.ReportError` from the
date search, `caldav.error.DeleteError` from a deletion,
`caldav.error.PutError` from an insertion. -/
inductive UploadErr
  | queryError
  | deleteError
  | putError
  deriving DecidableEq, Repr

/-- Black-box behaviour of the destination calendar: the result of
`date_search` for a given window, and whether each individual delete or
put succeeds. -/
structure Dest where
  dateSearch : Option Time → Option Time → Except Unit (List Nat)
  delOk : Nat → Bool
  putOk : Nat → Bool

/-- The deletion loop of `_upload_events` (lines 189-191): delete the
queried events one at a time, in order; a failing delete aborts the loop.
Returns the attempted deletions and whether the loop completed. -/
def runDeletes (delOk : Nat → Bool) : List Nat → List Action × Bool
  | [] => ([], true)
  | e :: rest =>
    if delOk e then
      (Action.del e :: (runDeletes delOk rest).1, (runDeletes delOk rest).2)
    else ([Action.del e], false)

/-- The insertion loop of `_upload_events` (lines 196-202): insert the
fetched events one at a time, in order; a failing put aborts the loop.
Returns the attempted insertions and whether the loop completed. -/
def runPuts (putOk : Nat → Bool) : List Nat → List Action × Bool
  | [] => ([], true)
  | ev :: rest =>
    if putOk ev then
      (Action.ins ev :: (runPuts putOk rest).1, (runPuts putOk rest).2)
    else ([Action.ins ev], false)

/-- `_upload_events` (lines 177-202): query the destination for existing
events in the configured window, delete them all, then insert every
fetched event. Returns the list of issued actions and the error outcome
(`none` on full success). -/
def uploadEvents (d : Dest) (u : Uploader) (events : List Nat) :
    List Action × Option UploadErr :=
  match d.dateSearch u.startTime u.endTime with
  | Except.error _ =>
    ([Action.query u.startTime u.endTime], some UploadErr.queryError)
  | Except.ok olds =>
    if (runDeletes d.delOk olds).2 then
      (Action.query u.startTime u.endTime ::
          ((runDeletes d.delOk olds).1 ++ (runPuts d.putOk events).1),
        if (runPuts d.putOk events).2 then none else some UploadErr.putError)
    else
      (Action.query u.startTime u.endTime :: (runDeletes d.delOk olds).1,
        some UploadErr.deleteError)

/-- A calendar visible to the authenticated CalDAV principal: its
canonical URL (`str(c.url)`) plus an opaque payload distinguishing
calendars with equal URLs. -/
structure CalDavCalendar where
  url : String
  payload : Nat
  deriving DecidableEq, Repr

/-- The error raised by `_retrieve_upload_calendar` when no calendar
matches (`caldav.error.NotFoundError`). -/
inductive DavErr
  | notFoundError
  deriving DecidableEq, Repr

/-- `_retrieve_upload_calendar` (lines 156-175), given the principal's
calendar list: return the first calendar whose URL equals the configured
target by string equality, or raise `NotFoundError`. -/
def retrieveUploadCalendar : List CalDavCalendar → String → Except DavErr CalDavCalendar
  | [], _ => Except.error DavErr.notFoundError
  | c :: rest, target =>
    if c.url = target then Except.ok c else retrieveUploadCalendar rest target

/-- The error kinds the `__main__` body can raise: the two
`ConfigParser` failure kinds (`NoSectionError` when a looked-up section
is absent, `NoOptionError` when the section exists but the option is
absent), the source transport and login failures, the five CalDAV
failure kinds, and `ValueError` (malformed date strings, and the
window-boundary check of the constructor). -/
inductive MainErr
  | noSection
  | noOption
  | transport
  | campusAuth
  | davAuth
  | davNotFound
  | davReport
  | davDelete
  | davPut
  | valueErr
  deriving DecidableEq, Repr

/-- The `except` chain of lines 254-270, as the translation from a raised
error kind to the single `log.error` line its clause emits; `none` for a
kind no clause matches (`ConfigParser.NoSectionError` is a sibling of
`NoOptionError`, not a subclass, so no clause catches it and it keeps
propagating). -/
def logLineFor : MainErr → Option String
  | MainErr.noSection => none
  | MainErr.noOption => some "Could not load config from file: %s"
  | MainErr.transport => some "Could not retrieve CampusOffice calendar: %s"
  | MainErr.campusAuth => some "Could not retrieve CampusOffice calendar: %s"
  | MainErr.davAuth => some "Could not access CalDAV calendar: Authorization failed"
  | MainErr.davNotFound => some "Could not find CalDAV calendar"
  | MainErr.davReport =>
    some "Could not retrieve list of already existing events in CalDAV calendar"
  | MainErr.davDelete =>
    some "Could not remove already existing event in CalDAV calendar"
  | MainErr.davPut => some "Could not upload new event to CalDAV calendar"
  | MainErr.valueErr => some "Could not parse time period: %s"

/-- The `[CampusOffice]` section: its two options, each present or
absent. -/
structure CampusSection where
  mat : Option String
  passwd : Option String
  deriving Repr

/-- The `[CalDAV]` section: its three options, each present or absent. -/
structure CalDavSection where
  url : Option String
  user : Option String
  passwd : Option String
  deriving Repr

/-- The optional `[Period]` section: its two options, each present or
absent. -/
structure PeriodSection where
  start : Option String
  stop : Option String
  deriving Repr

/-- The configuration source as the black-box loader presents it: each
section is present or absent (a wrong or nonexistent file path, which
`config.read` silently skips, yields one with no sections), and each
present section holds its options. -/
structure ConfigSrc where
  campus : Option CampusSection
  caldav : Option CalDavSection
  period : Option PeriodSection
  deriving Repr

/-- One `config.get(section, option)` call: an absent section raises
`NoSectionError`, an absent option of a present section raises
`NoOptionError`, and otherwise the value is returned. -/
def cfgGet (sec? : Option α) (fieldOf : α → Option String) : Except MainErr String :=
  match sec? with
  | none => Except.error MainErr.noSection
  | some sec =>
    match fieldOf sec with
    | none => Except.error MainErr.noOption
    | some v => Except.ok v

/-- One `datetime.strptime` call on a configured date string, with the
parse function supplied as a black box; failure is a `ValueError`. -/
def parseDateVal (parseDate : String → Option Time) (raw : String) :
    Except MainErr Time :=
  match parseDate raw with
  | some t => Except.ok t
  | none => Except.error MainErr.valueErr

/-- Reading the optional `[Period]` section (lines 244-249): when
`has_section` holds, `start` is read and parsed, then `end` is read and
parsed; when the section is absent, both bounds are `None`. -/
def readPeriod (cfg : ConfigSrc) (parseDate : String → Option Time) :
    Except MainErr (Option Time × Option Time) :=
  match cfg.period with
  | none => Except.ok (none, none)
  | some per =>
    match cfgGet (some per) PeriodSection.start with
    | Except.error e => Except.error e
    | Except.ok sRaw =>
    match parseDateVal parseDate sRaw with
    | Except.error e => Except.error e
    | Except.ok s =>
    match cfgGet (some per) PeriodSection.stop with
    | Except.error e => Except.error e
    | Except.ok eRaw =>
    match parseDateVal parseDate eRaw with
    | Except.error e => Except.error e
    | Except.ok en => Except.ok (some s, some en)

/-- The configuration and construction phase of the `__main__` body
(lines 237-252): read the five required fields in order with
`config.get`, read the optional period, and construct the uploader
(whose `ValueError` falls into the final `except ValueError` clause). No
network activity happens here. -/
def readConfigAndInit (cfg : ConfigSrc) (parseDate : String → Option Time)
    (today : Time) : Except MainErr Uploader :=
  match cfgGet cfg.campus CampusSection.mat with
  | Except.error e => Except.error e
  | Except.ok mat =>
  match cfgGet cfg.campus CampusSection.passwd with
  | Except.error e => Except.error e
  | Except.ok cpw =>
  match cfgGet cfg.caldav CalDavSection.url with
  | Except.error e => Except.error e
  | Except.ok url =>
  match cfgGet cfg.caldav CalDavSection.user with
  | Except.error e => Except.error e
  | Except.ok usr =>
  match cfgGet cfg.caldav CalDavSection.passwd with
  | Except.error e => Except.error e
  | Except.ok dpw =>
  match readPeriod cfg parseDate with
  | Except.error e => Except.error e
  | Except.ok period =>
  match initUploader mat cpw url usr dpw today period.1 period.2 with
  | Except.error _ => Except.error MainErr.valueErr
  | Except.ok u => Except.ok u

/-- The whole `try` body: configuration and construction, then
`uploader.upload()` whose outcome (the first network interaction) is a
black box. The boolean records whether the network was reached. -/
def mainBody (cfg : ConfigSrc) (parseDate : String → Option Time) (today : Time)
    (uploadOutcome : Uploader → Except MainErr Unit) : Except MainErr Unit × Bool :=
  match readConfigAndInit cfg parseDate today with
  | Except.error e => (Except.error e, false)
  | Except.ok u => (uploadOutcome u, true)

/-- The orchestrator (lines 235-270): run the body under the
`try`/`except` chain. An error kind with a matching clause produces
exactly one log line and terminates normally; a kind with no matching
clause propagates out uncaught. Returns the emitted log lines, the
network-reached flag, and the error that escaped the chain (if any). -/
def mainRun (cfg : ConfigSrc) (parseDate : String → Option Time) (today : Time)
    (uploadOutcome : Uploader → Except MainErr Unit) :
    List String × Bool × Option MainErr :=
  match mainBody cfg parseDate today uploadOutcome with
  | (Except.error e, net) =>
    match logLineFor e with
    | some line => ([line], net, none)
    | none => ([], net, some e)
  | (Except.ok _, net) => ([], net, none)

/-- A concrete uploader state used to instantiate theorems with
hypotheses on concrete inputs. -/
def wUploader : Uploader :=
  { startTime := some 0, endTime := some 5, matriculationNumber := "m",
    campusPassword := "p", calendarUrl := "u", calendarUser := "s",
    calendarPass := "w" }

/-- A concrete destination whose query succeeds with two existing events
and whose individual operations all succeed. -/
def wDestOk : Dest :=
  { dateSearch := fun _ _ => Except.ok [1, 2],
    delOk := fun _ => true, putOk := fun _ => true }

/-- A concrete destination whose date-range query fails. -/
def wDestQueryFail : Dest :=
  { dateSearch := fun _ _ => Except.error (),
    delOk := fun _ => true, putOk := fun _ => true }

/-- A fetch network where every request succeeds and the login redirect
does not carry the failure marker. -/
def wNetAllOk : FetchNet :=
  { basePage := Except.ok (), loginRedirect := Except.ok "ok",
    exportResp := Except.ok "BODY", logoutResp := Except.ok 200 }

/-- A fetch network whose login redirect carries the failure marker. -/
def wNetLoginFail : FetchNet :=
  { basePage := Except.ok (), loginRedirect := Except.ok "loginfailed",
    exportResp := Except.ok "BODY", logoutResp := Except.ok 200 }

/-- A fetch network where every step succeeds except the logout request,
which raises a connection-level exception. -/
def wNetLogoutFail : FetchNet :=
  { basePage := Except.ok (), loginRedirect := Except.ok "ok",
    exportResp := Except.ok "BODY", logoutResp := Except.error () }

/-- A trivial stand-in for the black-box iCalendar parse function. -/
def wParse : String → List Component := fun _ => [Component.event 1]

theorem runDeletes_all_del (delOk : Nat → Bool) (olds : List Nat) :
    ∀ a ∈ (runDeletes delOk olds).1, a.isDel = true := by
  induction olds with
  | nil => intro a ha; simp [runDeletes] at ha
  | cons e rest ih =>
    intro a ha
    by_cases h : delOk e = true
    · simp only [runDeletes, if_pos h, List.mem_cons] at ha
      rcases ha with ha | ha
      · subst ha; rfl
      · exact ih a ha
    · simp only [runDeletes, if_neg h, List.mem_cons, List.not_mem_nil, or_false] at ha
      subst ha; rfl

theorem runPuts_all_ins (putOk : Nat → Bool) (events : List Nat) :
    ∀ a ∈ (runPuts putOk events).1, a.isIns = true := by
  induction events with
  | nil => intro a ha; simp [runPuts] at ha
  | cons e rest ih =>
    intro a ha
    by_cases h : putOk e = true
    · simp only [runPuts, if_pos h, List.mem_cons] at ha
      rcases ha with ha | ha
      · subst ha; rfl
      · exact ih a ha
    · simp only [runPuts, if_neg h, List.mem_cons, List.not_mem_nil, or_false] at ha
      subst ha; rfl

theorem runDeletes_complete (delOk : Nat → Bool) (olds : List Nat)
    (h : (runDeletes delOk olds).2 = true) :
    (runDeletes delOk olds).1 = olds.map Action.del ∧ ∀ e ∈ olds, delOk e = true := by
  induction olds with
  | nil => exact ⟨rfl, by intro e he; cases he⟩
  | cons e rest ih =>
    by_cases hde : delOk e = true
    · simp only [runDeletes, if_pos hde] at h
      obtain ⟨h1, h2⟩ := ih h
      refine ⟨?_, ?_⟩
      · simp only [runDeletes, if_pos hde, List.map_cons, h1]
      · intro x hx
        rcases List.mem_cons.mp hx with hx | hx
        · subst hx; exact hde
        · exact h2 x hx
    · simp only [runDeletes, if_neg hde] at h
      cases h

theorem runDeletes_failed (delOk : Nat → Bool) (olds : List Nat)
    (h : ∃ e ∈ olds, delOk e = false) : (runDeletes delOk olds).2 = false := by
  cases hb : (runDeletes delOk olds).2 with
  | false => rfl
  | true =>
    obtain ⟨e, he, hf⟩ := h
    have hd := (runDeletes_complete delOk olds hb).2 e he
    rw [hd] at hf
    cases hf

/-- Claim C2: in the replace operation, if the date-range query of
existing destination events fails, the operation aborts with the query
error before performing any mutation: no deletion and no insertion is
issued to the destination. -/
theorem uploadEvents_query_failure_aborts (d : Dest) (u : Uploader) (events : List Nat)
    (hq : d.dateSearch u.startTime u.endTime = Except.error ()) :
    uploadEvents d u events =
      ([Action.query u.startTime u.endTime], some UploadErr.queryError) ∧
    ∀ a ∈ (uploadEvents d u events).1, a.isDel = false ∧ a.isIns = false := by
  have h1 : uploadEvents d u events =
      ([Action.query u.startTime u.endTime], some UploadErr.queryError) := by
    simp [uploadEvents, hq]
  refine ⟨h1, ?_⟩
  intro a ha
  rw [h1] at ha
  simp only [List.mem_singleton] at ha
  subst ha
  exact ⟨rfl, rfl⟩

/-- Witness for claim C2 at a concrete destination whose query fails. -/
theorem uploadEvents_query_failure_aborts_witness :
    (wDestQueryFail.dateSearch wUploader.startTime wUploader.endTime = Except.error ()) ∧
    (uploadEvents wDestQueryFail wUploader [1, 2] =
        ([Action.query wUploader.startTime wUploader.endTime], some UploadErr.queryError) ∧
      ∀ a ∈ (uploadEvents wDestQueryFail wUploader [1, 2]).1,
        a.isDel = false ∧ a.isIns = false) :=
  ⟨rfl, uploadEvents_query_failure_aborts wDestQueryFail wUploader [1, 2] rfl⟩

/-- Claim C3: the Fetcher keeps exactly the event components of the
parsed source document: the result is an order-preserving sublist of the
top-level components, every kept component is an event, the number kept
is the number N of event components, and each event component occurrence
is kept while all M non-event components are discarded. -/
theorem sourceEvents_filter_exact (subs : List Component) :
    List.Sublist (sourceEvents subs) subs ∧
    (∀ c ∈ sourceEvents subs, c.isEvent = true) ∧
    (sourceEvents subs).length = subs.countP (fun c => c.isEvent) ∧
    (∀ c : Component, c.isEvent = true →
      (sourceEvents subs).count c = subs.count c) := by
  refine ⟨List.filter_sublist subs, ?_, ?_, ?_⟩
  · intro c hc
    exact (List.mem_filter.mp hc).2
  · exact (List.countP_eq_length_filter _ _).symm
  · intro c hc
    exact List.count_filter hc

/-- Claim C6: `_retrieve_upload_calendar` returns the first calendar of
the principal list whose URL equals the configured target by exact string
equality, and raises `NotFoundError` whenever no URL equals the target:
no match means the error, a returned calendar is the first match, and
conversely whenever the list splits as a prefix of non-matching calendars
followed by a matching one, exactly that first matching calendar is
returned. -/
theorem retrieveUploadCalendar_first_match (cals : List CalDavCalendar) (target : String) :
    ((∀ c ∈ cals, c.url ≠ target) →
        retrieveUploadCalendar cals target = Except.error DavErr.notFoundError) ∧
    (∀ c : CalDavCalendar, retrieveUploadCalendar cals target = Except.ok c →
        c.url = target ∧
        ∃ pre suf, cals = pre ++ c :: suf ∧ ∀ x ∈ pre, x.url ≠ target) ∧
    (∀ pre (c : CalDavCalendar) suf, cals = pre ++ c :: suf →
        (∀ x ∈ pre, x.url ≠ target) → c.url = target →
        retrieveUploadCalendar cals target = Except.ok c) := by
  induction cals with
  | nil =>
    refine ⟨fun _ => rfl, fun c hc => ?_, ?_⟩
    · simp [retrieveUploadCalendar] at hc
    · intro pre c suf hsplit _ _
      cases pre <;> simp at hsplit
  | cons a rest ih =>
    refine ⟨?_, ?_, ?_⟩
    · intro hall
      have ha : ¬ a.url = target := hall a (List.mem_cons_self a rest)
      simp only [retrieveUploadCalendar, if_neg ha]
      exact ih.1 (fun c hc => hall c (List.mem_cons_of_mem _ hc))
    · intro c hc
      by_cases ha : a.url = target
      · simp only [retrieveUploadCalendar, if_pos ha, Except.ok.injEq] at hc
        subst hc
        exact ⟨ha, [], rest, rfl, by intro x hx; cases hx⟩
      · simp only [retrieveUploadCalendar, if_neg ha] at hc
        obtain ⟨hurl, pre, suf, hsplit, hpre⟩ := ih.2.1 c hc
        refine ⟨hurl, a :: pre, suf, by rw [hsplit]; rfl, ?_⟩
        intro x hx
        rcases List.mem_cons.mp hx with h | h
        · subst h; exact ha
        · exact hpre x h
    · intro pre c suf hsplit hpre hc
      cases pre with
      | nil =>
        simp only [List.nil_append, List.cons.injEq] at hsplit
        obtain ⟨h1, h2⟩ := hsplit
        subst h1
        simp only [retrieveUploadCalendar, if_pos hc]
      | cons p pre2 =>
        simp only [List.cons_append, List.cons.injEq] at hsplit
        obtain ⟨h1, hrest⟩ := hsplit
        have hane : a.url ≠ target := by
          rw [h1]; exact hpre p (List.mem_cons_self p pre2)
        simp only [retrieveUploadCalendar, if_neg hane]
        exact ih.2.2 pre2 c suf hrest
          (fun x hx => hpre x (List.mem_cons_of_mem _ hx)) hc

/-- Claim C1: in the replace operation, every event returned by the
destination window query is deleted before any fetched event is inserted
(the issued action list is the query, then only deletions, then only
insertions, and insertions occur only after every queried event was
deleted successfully), and if any single deletion fails then no insertion
is issued at all and the outcome is the delete error. -/
theorem uploadEvents_deletes_precede_inserts (d : Dest) (u : Uploader)
    (events olds : List Nat)
    (hq : d.dateSearch u.startTime u.endTime = Except.ok olds) :
    (∃ pre suf,
      (uploadEvents d u events).1 =
        Action.query u.startTime u.endTime :: (pre ++ suf) ∧
      (∀ a ∈ pre, a.isDel = true) ∧ (∀ a ∈ suf, a.isIns = true) ∧
      (suf ≠ [] → pre = olds.map Action.del ∧ ∀ e ∈ olds, d.delOk e = true)) ∧
    ((∃ e ∈ olds, d.delOk e = false) →
      (∀ a ∈ (uploadEvents d u events).1, a.isIns = false) ∧
      (uploadEvents d u events).2 = some UploadErr.deleteError) := by
  constructor
  · by_cases hdel : (runDeletes d.delOk olds).2 = true
    · refine ⟨(runDeletes d.delOk olds).1, (runPuts d.putOk events).1, ?_,
        runDeletes_all_del _ _, runPuts_all_ins _ _, ?_⟩
      · simp [uploadEvents, hq, hdel]
      · intro _
        exact runDeletes_complete _ _ hdel
    · refine ⟨(runDeletes d.delOk olds).1, [], ?_,
        runDeletes_all_del _ _, ?_, ?_⟩
      · simp [uploadEvents, hq, hdel]
      · intro a ha; cases ha
      · intro hne; cases hne rfl
  · intro hfail
    have hdel := runDeletes_failed d.delOk olds hfail
    have htr : (uploadEvents d u events).1 =
        Action.query u.startTime u.endTime :: (runDeletes d.delOk olds).1 := by
      simp [uploadEvents, hq, hdel]
    constructor
    · intro a ha
      rw [htr] at ha
      rcases List.mem_cons.mp ha with h | h
      · subst h; rfl
      · have hd := runDeletes_all_del d.delOk olds a h
        cases a <;> simp_all [Action.isDel, Action.isIns]
    · simp [uploadEvents, hq, hdel]

/-- Witness for claim C1 at a concrete destination with two existing
events and one fetched event. -/
theorem uploadEvents_deletes_precede_inserts_witness :
    (wDestOk.dateSearch wUploader.startTime wUploader.endTime = Except.ok [1, 2]) ∧
    ((∃ pre suf,
      (uploadEvents wDestOk wUploader [7]).1 =
        Action.query wUploader.startTime wUploader.endTime :: (pre ++ suf) ∧
      (∀ a ∈ pre, a.isDel = true) ∧ (∀ a ∈ suf, a.isIns = true) ∧
      (suf ≠ [] → pre = [1, 2].map Action.del ∧ ∀ e ∈ [1, 2], wDestOk.delOk e = true)) ∧
    ((∃ e ∈ [1, 2], wDestOk.delOk e = false) →
      (∀ a ∈ (uploadEvents wDestOk wUploader [7]).1, a.isIns = false) ∧
      (uploadEvents wDestOk wUploader [7]).2 = some UploadErr.deleteError)) :=
  ⟨rfl, uploadEvents_deletes_precede_inserts wDestOk wUploader [7] [1, 2] rfl⟩

theorem exportReq_carries_window (u : Uploader) (net : FetchNet)
    (parse : String → List Component) (ws we : Option Time)
    (h : Req.exportReq ws we ∈ (retrieveSourceCalendar u net parse).1) :
    ws = u.startTime ∧ we = u.endTime := by
  unfold retrieveSourceCalendar at h
  split at h
  · simp at h
  · split at h
    · simp at h
    · split at h
      · simp at h
      · split at h
        · simp at h
          exact ⟨h.1, h.2⟩
        · split at h
          · simp at h
            exact ⟨h.1, h.2⟩
          · simp at h
            exact ⟨h.1, h.2⟩

theorem uploadEvents_query_first (d : Dest) (u : Uploader) (events : List Nat) :
    ∃ rest, (uploadEvents d u events).1 =
      Action.query u.startTime u.endTime :: rest := by
  cases hq : d.dateSearch u.startTime u.endTime with
  | error e => exact ⟨[], by simp [uploadEvents, hq]⟩
  | ok olds =>
    by_cases hdel : (runDeletes d.delOk olds).2 = true
    · exact ⟨(runDeletes d.delOk olds).1 ++ (runPuts d.putOk events).1,
        by simp [uploadEvents, hq, hdel]⟩
    · exact ⟨(runDeletes d.delOk olds).1, by simp [uploadEvents, hq, hdel]⟩

/-- Claim C10: construction with neither bound supplied succeeds and
defaults the window to one week before today through 27 weeks after
today (an ordered window), and this default window is exactly what the
calendar-export request of the fetch and the date-range query of the
replace operation carry. -/
theorem initUploader_default_window (m p cu cs cw : String) (today : Time) :
    ∃ u, initUploader m p cu cs cw today none none = Except.ok u ∧
      u.startTime = some (today - 7) ∧ u.endTime = some (today + 189) ∧
      today - 7 ≤ today + 189 ∧
      (∀ net parse ws we,
        Req.exportReq ws we ∈ (retrieveSourceCalendar u net parse).1 →
          ws = some (today - 7) ∧ we = some (today + 189)) ∧
      (∀ d events, ∃ rest, (uploadEvents d u events).1 =
          Action.query (some (today - 7)) (some (today + 189)) :: rest) := by
  refine ⟨_, rfl, rfl, rfl, ?_, ?_, ?_⟩
  · linarith
  · intro net parse ws we h
    have := exportReq_carries_window _ net parse ws we h
    exact this
  · intro d events
    exact uploadEvents_query_first d _ events

/-- Claim C4 counterexample: constructing with both bounds supplied and
start below end can still raise, because the constructor assigns the
start through its setter while the end field still holds the default
today + 27 weeks: with today = 0, start = 200 and end = 300 the
constructor raises a ValueError although 200 is at most 300. -/
theorem initUploader_both_bounds_cex :
    (200 : Time) ≤ 300 ∧
    initUploader "m" "p" "u" "s" "w" 0 (some 200) (some 300) =
      Except.error ValueErr.valueError :=
  ⟨by decide, rfl⟩

/-- Claim C4 (amended): constructing with exactly one bound supplied
raises a ValueError, constructing with neither succeeds, and constructing
with both bounds and start at most end succeeds provided start also does
not exceed the default end bound today + 27 weeks; beyond that bound the
start setter raises against the not yet overwritten default end. -/
theorem initUploader_bound_rules (m p cu cs cw : String) (today st en : Time)
    (hse : st ≤ en) (hdef : st ≤ today + 189) :
    (initUploader m p cu cs cw today (some st) none =
        Except.error ValueErr.valueError) ∧
    (initUploader m p cu cs cw today none (some en) =
        Except.error ValueErr.valueError) ∧
    (∃ u, initUploader m p cu cs cw today none none = Except.ok u) ∧
    (∃ u, initUploader m p cu cs cw today (some st) (some en) = Except.ok u) := by
  have h1 : ¬ (today + 189 < st) := by linarith
  have h2 : ¬ (st > en) := by linarith
  have h4 : initUploader m p cu cs cw today (some st) (some en) =
      Except.ok { startTime := some st, endTime := some en,
                  matriculationNumber := m, campusPassword := p,
                  calendarUrl := cu, calendarUser := cs,
                  calendarPass := cw } := by
    simp only [initUploader, setStartTime]
    rw [if_neg h1]
    dsimp only
    simp only [setEndTime]
    rw [if_neg h2]
  exact ⟨rfl, rfl, ⟨_, rfl⟩, ⟨_, h4⟩⟩

/-- Witness for claim C4 (amended) at today = 0, start = 1, end = 2. -/
theorem initUploader_bound_rules_witness :
    ((1 : Time) ≤ 2 ∧ (1 : Time) ≤ 0 + 189) ∧
    ((initUploader "m" "p" "u" "s" "w" 0 (some 1) none =
        Except.error ValueErr.valueError) ∧
    (initUploader "m" "p" "u" "s" "w" 0 none (some 2) =
        Except.error ValueErr.valueError) ∧
    (∃ u, initUploader "m" "p" "u" "s" "w" 0 none none = Except.ok u) ∧
    (∃ u, initUploader "m" "p" "u" "s" "w" 0 (some 1) (some 2) = Except.ok u)) :=
  ⟨⟨by decide, by decide⟩,
    initUploader_bound_rules "m" "p" "u" "s" "w" 0 1 2 (by decide) (by decide)⟩

/-- Claim C5: the window ordering invariant. After every successful
construction the stored bounds satisfy start at most end; on a state
satisfying the invariant, each setter in isolation succeeds and updates
only its own bound when the new value keeps the ordering, and raises a
ValueError when the assignment would make start exceed end. -/
theorem window_ordering_invariant (u : Uploader) (s e : Time)
    (hs : u.startTime = some s) (he : u.endTime = some e) (hle : s ≤ e) :
    (∀ m p cu cs cw today st? en? u0,
        initUploader m p cu cs cw today st? en? = Except.ok u0 →
        ∃ s0 e0, u0.startTime = some s0 ∧ u0.endTime = some e0 ∧ s0 ≤ e0) ∧
    (∀ s', s' ≤ e →
        setStartTime u s' = Except.ok { u with startTime := some s' }) ∧
    (∀ s', e < s' → setStartTime u s' = Except.error ValueErr.valueError) ∧
    (∀ e', s ≤ e' →
        setEndTime u e' = Except.ok { u with endTime := some e' }) ∧
    (∀ e', e' < s → setEndTime u e' = Except.error ValueErr.valueError) := by
  refine ⟨?_, ?_, ?_, ?_, ?_⟩
  · intro m p cu cs cw today st? en? u0 h
    cases st? with
    | none =>
      cases en? with
      | none =>
        simp only [initUploader, Except.ok.injEq] at h
        subst h
        exact ⟨today - 7, today + 189, rfl, rfl, by linarith⟩
      | some ee => simp [initUploader] at h
    | some ss =>
      cases en? with
      | none => simp [initUploader] at h
      | some ee =>
        simp only [initUploader] at h
        split at h
        · cases h
        · rename_i u1 heq
          simp only [setStartTime] at heq
          split at heq
          · cases heq
          · rename_i hlt
            simp only [Except.ok.injEq] at heq
            subst heq
            simp only [setEndTime] at h
            split at h
            · cases h
            · rename_i hgt
              simp only [Except.ok.injEq] at h
              subst h
              exact ⟨ss, ee, rfl, rfl, by simp at hgt; linarith⟩
  · intro s' hs'
    simp only [setStartTime, he]
    rw [if_neg (by linarith : ¬ e < s')]
  · intro s' hs'
    simp only [setStartTime, he]
    rw [if_pos hs']
  · intro e' he'
    simp only [setEndTime, hs]
    rw [if_neg (by linarith : ¬ s > e')]
  · intro e' he'
    simp only [setEndTime, hs]
    rw [if_pos (by linarith : s > e')]

/-- Witness for claim C5 at a concrete state with window 0 to 5. -/
theorem window_ordering_invariant_witness :
    (wUploader.startTime = some 0 ∧ wUploader.endTime = some 5 ∧ (0 : Time) ≤ 5) ∧
    ((∀ m p cu cs cw today st? en? u0,
        initUploader m p cu cs cw today st? en? = Except.ok u0 →
        ∃ s0 e0, u0.startTime = some s0 ∧ u0.endTime = some e0 ∧ s0 ≤ e0) ∧
    (∀ s', s' ≤ 5 →
        setStartTime wUploader s' = Except.ok { wUploader with startTime := some s' }) ∧
    (∀ s', 5 < s' → setStartTime wUploader s' = Except.error ValueErr.valueError) ∧
    (∀ e', 0 ≤ e' →
        setEndTime wUploader e' = Except.ok { wUploader with endTime := some e' }) ∧
    (∀ e', e' < 0 → setEndTime wUploader e' = Except.error ValueErr.valueError)) :=
  ⟨⟨rfl, rfl, by decide⟩,
    window_ordering_invariant wUploader 0 5 rfl rfl (by decide)⟩

/-- Claim C7: if the redirect target of the login response contains the
login-failure marker, the fetch raises the CampusOffice authorization
error, the calendar-export request is never issued, and this error kind
is distinct from the generic transport failure. -/
theorem fetch_login_failure_aborts (u : Uploader) (net : FetchNet)
    (parse : String → List Component) (loc : String)
    (hbase : net.basePage = Except.ok ())
    (hlogin : net.loginRedirect = Except.ok loc)
    (hfail : hasSubstr loginFailedMarker loc.toList = true) :
    retrieveSourceCalendar u net parse =
      ([Req.base, Req.login], Except.error FetchErr.campusAuth) ∧
    (∀ ws we, Req.exportReq ws we ∉ (retrieveSourceCalendar u net parse).1) ∧
    FetchErr.campusAuth ≠ FetchErr.transport := by
  have hfail2 : hasSubstr loginFailedMarker loc.data = true := hfail
  have h1 : retrieveSourceCalendar u net parse =
      ([Req.base, Req.login], Except.error FetchErr.campusAuth) := by
    simp [retrieveSourceCalendar, hbase, hlogin, hfail, hfail2]
  refine ⟨h1, ?_, by simp⟩
  intro ws we hmem
  rw [h1] at hmem
  simp at hmem

/-- Witness for claim C7 with a login redirect equal to the marker. -/
theorem fetch_login_failure_aborts_witness :
    (wNetLoginFail.basePage = Except.ok () ∧
      wNetLoginFail.loginRedirect = Except.ok "loginfailed" ∧
      hasSubstr loginFailedMarker ("loginfailed".toList) = true) ∧
    (retrieveSourceCalendar wUploader wNetLoginFail wParse =
        ([Req.base, Req.login], Except.error FetchErr.campusAuth) ∧
      (∀ ws we, Req.exportReq ws we ∉ (retrieveSourceCalendar wUploader wNetLoginFail wParse).1) ∧
      FetchErr.campusAuth ≠ FetchErr.transport) :=
  ⟨⟨rfl, rfl, by decide⟩,
    fetch_login_failure_aborts wUploader wNetLoginFail wParse "loginfailed"
      rfl rfl (by decide)⟩

/-- Claim C8 counterexample: with a successful base fetch, login and
export but a logout request that raises a connection-level exception, the
fetch does not proceed to return the parsed calendar: the exception
propagates out of the fetch as a transport error. -/
theorem fetch_logout_failure_cex :
    (retrieveSourceCalendar wUploader wNetLogoutFail wParse).2 =
      Except.error FetchErr.transport := rfl

/-- Claim C8 (amended): the logout is best-effort with respect to the
response only: the logout response status is never checked, and for every
response status the fetch still proceeds to parse and return the
calendar; a connection-level exception raised by the logout request
itself, however, propagates out of the fetch as a transport error. -/
theorem fetch_logout_status_ignored (u : Uploader) (net : FetchNet)
    (parse : String → List Component) (loc body : String) (status : Nat)
    (hbase : net.basePage = Except.ok ())
    (hlogin : net.loginRedirect = Except.ok loc)
    (hok : hasSubstr loginFailedMarker loc.toList = false)
    (hexp : net.exportResp = Except.ok body)
    (hlogout : net.logoutResp = Except.ok status) :
    retrieveSourceCalendar u net parse =
      ([Req.base, Req.login, Req.exportReq u.startTime u.endTime, Req.logout],
        Except.ok (parse body)) := by
  have hok2 : hasSubstr loginFailedMarker loc.data = false := hok
  simp [retrieveSourceCalendar, hbase, hlogin, hexp, hlogout, hok, hok2]

/-- Witness for claim C8 (amended) with a logout response of status 200. -/
theorem fetch_logout_status_ignored_witness :
    (wNetAllOk.basePage = Except.ok () ∧
      wNetAllOk.loginRedirect = Except.ok "ok" ∧
      hasSubstr loginFailedMarker ("ok".toList) = false ∧
      wNetAllOk.exportResp = Except.ok "BODY" ∧
      wNetAllOk.logoutResp = Except.ok 200) ∧
    retrieveSourceCalendar wUploader wNetAllOk wParse =
      ([Req.base, Req.login, Req.exportReq wUploader.startTime wUploader.endTime,
        Req.logout], Except.ok (wParse "BODY")) :=
  ⟨⟨rfl, rfl, by decide, rfl, rfl⟩,
    fetch_logout_status_ignored wUploader wNetAllOk wParse "ok" "BODY" 200
      rfl rfl (by decide) rfl rfl⟩

/-- Claim C9 counterexample: a configuration source with no sections at
all (the presentation of a wrong or nonexistent config path, or of a
file lacking the required sections) is missing every required field,
yet the orchestrator emits no log line for it: `config.get` raises
`NoSectionError`, no `except` clause matches it, and the error keeps
propagating out of the program instead of being reported as a
configuration error. -/
theorem mainRun_missing_section_cex :
    ({ campus := none, caldav := none, period := none } : ConfigSrc).campus = none ∧
    mainRun { campus := none, caldav := none, period := none }
        (fun _ => none) 0 (fun _ => Except.ok ()) =
      ([], false, some MainErr.noSection) :=
  ⟨rfl, rfl⟩

/-- Claim C9 (amended): every error kind with a matching `except` clause
is translated into exactly one human-readable log line and the program
terminates without raising further (a successful body logs nothing), and
a required option absent from a present section is reported as the
configuration error before any network activity; but when a required
section itself is absent, `config.get` raises `NoSectionError`, which no
clause catches: the program logs nothing and the error propagates
further, still before any network activity. -/
theorem mainRun_caught_kinds_single_line (cfg : ConfigSrc)
    (parseDate : String → Option Time) (today : Time)
    (uploadOutcome : Uploader → Except MainErr Unit) :
    (∀ (e : MainErr) (line : String),
        (mainBody cfg parseDate today uploadOutcome).1 = Except.error e →
        logLineFor e = some line →
        mainRun cfg parseDate today uploadOutcome =
          ([line], (mainBody cfg parseDate today uploadOutcome).2, none)) ∧
    ((mainBody cfg parseDate today uploadOutcome).1 = Except.ok () →
        (mainRun cfg parseDate today uploadOutcome).1 = []) ∧
    (∀ csec dsec, cfg.campus = some csec → cfg.caldav = some dsec →
        (csec.mat = none ∨ csec.passwd = none ∨ dsec.url = none ∨
          dsec.user = none ∨ dsec.passwd = none) →
        mainRun cfg parseDate today uploadOutcome =
          (["Could not load config from file: %s"], false, none)) ∧
    (cfg.campus = none →
        mainRun cfg parseDate today uploadOutcome =
          ([], false, some MainErr.noSection)) := by
  refine ⟨?_, ?_, ?_, ?_⟩
  · intro e line he hline
    cases hrc : readConfigAndInit cfg parseDate today with
    | error e0 =>
      simp only [mainBody, hrc] at he
      injection he with he
      subst he
      simp [mainRun, mainBody, hrc, hline]
    | ok u =>
      simp only [mainBody, hrc] at he
      simp [mainRun, mainBody, hrc, he, hline]
  · intro hok
    cases hrc : readConfigAndInit cfg parseDate today with
    | error e0 =>
      simp only [mainBody, hrc] at hok
      cases hok
    | ok u =>
      simp only [mainBody, hrc] at hok
      simp [mainRun, mainBody, hrc, hok]
  · intro csec dsec hcampus hcaldav hmiss
    have hrc : readConfigAndInit cfg parseDate today =
        Except.error MainErr.noOption := by
      cases hm1 : csec.mat <;> cases hm2 : csec.passwd <;>
        cases hm3 : dsec.url <;> cases hm4 : dsec.user <;>
        cases hm5 : dsec.passwd <;>
        simp_all [readConfigAndInit, cfgGet]
    simp [mainRun, mainBody, hrc, logLineFor]
  · intro hnone
    have hrc : readConfigAndInit cfg parseDate today =
        Except.error MainErr.noSection := by
      simp [readConfigAndInit, cfgGet, hnone]
    simp [mainRun, mainBody, hrc, logLineFor]

end CacalUpload







